import Mathlib

/-!
Shallow embedding of `hota_metrics/datasets/_base_dataset.py` (TrackEval):
the text-ingestion engine `_load_simple_text_file`, the raw-sequence
orchestrator `get_raw_seq_data`, the box-similarity engine
`_calculate_box_ious` and the identity checker `_check_unique_ids`,
together with theorems settling the specification's claims about them.

Python dictionaries are embedded as association lists in insertion order
(first occurrence wins on lookup, as Python keys are unique); numpy float
arrays are embedded as lists of rationals; exceptions are embedded with
`Except`.
-/

set_option autoImplicit false

namespace TrackEval

/-- Python-level failures that the embedded code can raise. -/
inductive PyErr where
  /-- list index out of range (`row[k]` with `k` past the end) -/
  | indexError
  /-- missing key in a convert-filter mapping -/
  | keyError
  /-- a record field does not hold the kind of value the code reads from it -/
  | typeError
  /-- `float(...)` applied to a non-numeric string -/
  | valueError
  /-- explicit `raise Exception(...)` for bad configuration (lines 127-128, 134-135) -/
  | configError
  /-- `csv.Sniffer().sniff` failed to determine the dialect (line 140) -/
  | sniffError
  /-- `box_format %s is not implemented` (line 202) -/
  | unsupportedFormat
  deriving DecidableEq, Repr

/-- One parsed CSV row: the raw text of each column. -/
abbrev Row := List String

/-- A timestep-keyed bucket of rows: embeds the Python dicts `read_data` and
`crowd_ignore_data` (keys in insertion order, values appended in order). -/
abbrev Bucket := List (String × List Row)

/-- Rows stored in bucket `b` under timestep key `k` (empty when absent). -/
def bucketGet (b : Bucket) (k : String) : List Row :=
  match b with
  | [] => []
  | (k', v) :: r => if k' = k then v else bucketGet r k

/-- Embeds lines 159-162 / 178-181: append `row` under key `k` when the key
exists, otherwise start a fresh singleton list at the end of the dict. -/
def bucketAdd (b : Bucket) (k : String) (row : Row) : Bucket :=
  if (b.map Prod.fst).contains k then
    b.map (fun p => (p.1, if p.1 = k then p.2 ++ [row] else p.2))
  else
    b ++ [(k, [row])]


/-! ### Python dictionaries with arbitrary value type

`get_raw_seq_data` manipulates the raw-data dicts returned by
`_load_raw_file`; we embed them as insertion-ordered association lists with
unique keys, and `{**a, **b}` / `d[k] = v` as `dictUpdate` / `dset`. -/

/-- First-occurrence lookup in an association list (Python `d[k]` / `k in d`). -/
def dget {V : Type} (m : List (String × V)) (k : String) : Option V :=
  match m with
  | [] => none
  | (k', v) :: r => if k' = k then some v else dget r k

/-- Embeds `{**a, **b}` (line 82): the keys of `a` first, in order, each with
`b`'s value when `b` also binds the key, followed by the keys of `b` that `a`
does not bind, in `b`'s order. -/
def dictUpdate {V : Type} (a b : List (String × V)) : List (String × V) :=
  a.map (fun p => match dget b p.1 with
    | some v => (p.1, v)
    | none => p)
  ++ b.filter (fun p => (dget a p.1).isNone)

/-- Embeds `d[k] = v` (line 89): overwrite in place when the key exists,
otherwise append the new binding at the end. -/
def dset {V : Type} (m : List (String × V)) (k : String) (v : V) :
    List (String × V) :=
  if (dget m k).isSome then
    m.map (fun p => (p.1, if p.1 = k then v else p.2))
  else
    m ++ [(k, v)]


/-! ### `get_raw_seq_data` (lines 54-90)

The two `_load_raw_file` calls are abstract (subclass responsibility); the
orchestrator receives their results as records.  `D` is the opaque
per-detection geometry type and `M` the similarity-matrix type returned by the
abstract `_calculate_similarities`. -/

/-- A value stored in a raw-data record: the kinds of field
`get_raw_seq_data`'s docstring enumerates (lines 61-67). -/
inductive PyVal (D M : Type) where
  /-- an integer field such as `num_timesteps` -/
  | vint (n : Int)
  /-- a string field such as `seq` -/
  | vstr (s : String)
  /-- a per-timestep list of detection lists (`gt_dets`, `tracker_dets`) -/
  | dets (l : List (List D))
  /-- a per-timestep list of ID arrays (`gt_ids`, `tracker_ids`) -/
  | ids (l : List (List Int))
  /-- a per-timestep list of 2D similarity matrices (`similarity_scores`) -/
  | mats (l : List M)
  deriving DecidableEq

/-- A raw-data record: a Python dict from field name to value. -/
abbrev RawRec (D M : Type) := List (String × PyVal D M)

/-- Line 82: `raw_data = {**raw_tracker_data, **raw_gt_data}`. -/
def mergeRawData {D M : Type} (rawTrackerData rawGtData : RawRec D M) :
    RawRec D M :=
  dictUpdate rawTrackerData rawGtData

/-- `raw_data[k]` where the field must hold a per-timestep detection list:
`KeyError` when absent, `TypeError` when the value is of another kind. -/
def getDetsField {D M : Type} (m : RawRec D M) (k : String) :
    Except PyErr (List (List D)) :=
  match dget m k with
  | some (PyVal.dets l) => Except.ok l
  | some _ => Except.error PyErr.typeError
  | none => Except.error PyErr.keyError

/-- Embeds `get_raw_seq_data` (lines 79-90): load the two partial records
(taken here as arguments, since `_load_raw_file` is abstract), merge them with
the gt record second, zip the two detection lists, compute one similarity
matrix per zipped timestep with the abstract `calcSim`, and store the list under
`similarity_scores`. -/
def getRawSeqData {D M : Type} (calcSim : List D → List D → M)
    (rawGtData rawTrackerData : RawRec D M) : Except PyErr (RawRec D M) :=
  match getDetsField (mergeRawData rawTrackerData rawGtData) "gt_dets" with
  | Except.error e => Except.error e
  | Except.ok gtDets =>
    match getDetsField (mergeRawData rawTrackerData rawGtData) "tracker_dets" with
    | Except.error e => Except.error e
    | Except.ok trackerDets =>
      Except.ok (dset (mergeRawData rawTrackerData rawGtData)
        "similarity_scores"
        (PyVal.mats ((gtDets.zip trackerDets).map (fun p => calcSim p.1 p.2))))

/-! ### `_load_simple_text_file` (lines 92-183)

The CSV reader itself is Python library code; the embedding starts from the
list of parsed rows and models the per-row classification loop (lines
146-181) exactly, plus a control-flow skeleton for the handle/sniffing claims.
-/

/-- A `crowd_ignore_filter` / `valid_filter` value: column index to allow-set. -/
abbrev ColFilter := List (Nat × List String)

/-- A `convert_filter` value: column index to a lowercased-token mapping. -/
abbrev ConvFilter := List (Nat × List (String × String))

/-- Python's `s.lower()`, written through the character list so that it
evaluates by kernel reduction. -/
def strLower (s : String) : String :=
  String.mk (s.toList.map Char.toLower)

/-- First-occurrence lookup in a convert sub-mapping. -/
def convLookup (m : List (String × String)) (k : String) : Option String :=
  match m with
  | [] => none
  | (k', v) :: r => if k' = k then some v else convLookup r k

/-- The keyword arguments of `_load_simple_text_file` (lines 93-95). The
defaults are the Python defaults; `is_zipped`/`zip_file` are kept only as the
flags the configuration guard of lines 134-135 inspects. -/
structure LoadParams where
  time_col : Nat := 0
  id_col : Option Nat := none
  remove_negative_ids : Bool := false
  valid_filter : Option ColFilter := none
  crowd_ignore_filter : Option ColFilter := none
  convert_filter : Option ConvFilter := none
  is_zipped : Bool := false
  zip_file_given : Bool := false
  deriving DecidableEq

/-- Lines 129-130: `crowd_ignore_filter = {}` when `None`. -/
def LoadParams.cif (p : LoadParams) : ColFilter :=
  p.crowd_ignore_filter.getD []

/-- Lines 131-132: `convert_filter = {}` when `None`. -/
def LoadParams.cvf (p : LoadParams) : ConvFilter :=
  p.convert_filter.getD []

/-- Lines 156-157 / 175-176: `row[ck] = cv[row[ck].lower()]` for every entry
of the convert filter, mutating the row in place. -/
def convertRow (cf : ConvFilter) (row : Row) : Except PyErr Row :=
  match cf with
  | [] => Except.ok row
  | (ck, cv) :: rest =>
    match row.get? ck with
    | none => Except.error PyErr.indexError
    | some v =>
      match convLookup cv (strLower v) with
      | some w => convertRow rest (row.set ck w)
      | none => Except.error PyErr.keyError

/-- Lines 152-163: the loop over `crowd_ignore_filter.items()`. For each
entry whose column value (lowercased) is in the allow-set, the row is
converted in place, appended to the ignore bucket under `ts`, and the
`is_ignored` flag is set; a non-matching entry changes nothing. The loop
carries the (possibly converted) row, the ignore bucket and the flag. -/
def ignoreLoop (cf : ConvFilter) (ts : String) :
    ColFilter → Row → Bucket → Bool → Except PyErr (Row × Bucket × Bool)
  | [], row, ig, flag => Except.ok (row, ig, flag)
  | (k, vs) :: rest, row, ig, flag =>
    match row.get? k with
    | none => Except.error PyErr.indexError
    | some v =>
      if strLower v ∈ vs then
        match convertRow cf row with
        | Except.error e => Except.error e
        | Except.ok row' =>
          ignoreLoop cf ts rest row' (bucketAdd ig ts row') true
      else
        ignoreLoop cf ts rest row ig flag

/-- Lines 167-170: the `valid_filter` loop. The body's `continue` only skips
to the next filter entry, so the loop's sole observable effect is evaluating
`row[key].lower()` (which can raise `IndexError`); no row is excluded. -/
def validFilterLoop (vf : ColFilter) (row : Row) : Except PyErr Unit :=
  match vf with
  | [] => Except.ok ()
  | (k, _vs) :: rest =>
    match row.get? k with
    | none => Except.error PyErr.indexError
    | some _ => validFilterLoop rest row

/-- Line 167: the `valid_filter is not None` guard around the loop. -/
def validFilterPass (vfOpt : Option ColFilter) (row : Row) :
    Except PyErr Unit :=
  match vfOpt with
  | none => Except.ok ()
  | some vf => validFilterLoop vf row

/-- Embeds `int(float(s))` on the id column (line 172): optional sign,
integer digits, optional fractional digits, truncated toward zero.
`ValueError` when the trimmed string is not of that shape. -/
def pyIntFloat (s : String) : Except PyErr Int :=
  let cs := s.trim.toList
  let signed := match cs with
    | '-' :: r => (true, r)
    | '+' :: r => (false, r)
    | _ => (false, cs)
  let ip := signed.2.takeWhile Char.isDigit
  let rest := signed.2.dropWhile Char.isDigit
  let shapeOk := match rest with
    | [] => !ip.isEmpty
    | '.' :: fr => (!ip.isEmpty || !fr.isEmpty) && fr.all Char.isDigit
    | _ => false
  if shapeOk then
    let n : Nat := ip.foldl (fun a c => a * 10 + (c.toNat - 48)) 0
    Except.ok (if signed.1 then -(n : Int) else (n : Int))
  else
    Except.error PyErr.valueError

/-- Lines 147-149: drop the trailing field when it is the empty string
(`row[-1] in ''` is true exactly for the empty string). Total version used in
theorem statements; `processRow` raises `IndexError` on an empty row first. -/
def stripRow (row : Row) : Row :=
  if row.getLast? = some "" then row.dropLast else row

/-- The loop body for one CSV row (lines 146-181), threading the pair
(`read_data`, `crowd_ignore_data`). -/
def processRow (p : LoadParams) (st : Bucket × Bucket) (row : Row) :
    Except PyErr (Bucket × Bucket) :=
  match row.getLast? with
  | none => Except.error PyErr.indexError
  | some _ =>
    let row1 := stripRow row
    match row1.get? p.time_col with
    | none => Except.error PyErr.indexError
    | some ts =>
      match ignoreLoop p.cvf ts p.cif row1 st.2 false with
      | Except.error e => Except.error e
      | Except.ok (row2, ig2, isIgnored) =>
        if isIgnored then
          Except.ok (st.1, ig2)
        else
          match validFilterPass p.valid_filter row2 with
          | Except.error e => Except.error e
          | Except.ok _ =>
            if p.remove_negative_ids then
              match p.id_col with
              | none => Except.error PyErr.configError
              | some ic =>
                match row2.get? ic with
                | none => Except.error PyErr.indexError
                | some idv =>
                  match pyIntFloat idv with
                  | Except.error e => Except.error e
                  | Except.ok idn =>
                    if idn < 0 then
                      Except.ok (st.1, ig2)
                    else
                      match convertRow p.cvf row2 with
                      | Except.error e => Except.error e
                      | Except.ok row3 =>
                        Except.ok (bucketAdd st.1 ts row3, ig2)
            else
              match convertRow p.cvf row2 with
              | Except.error e => Except.error e
              | Except.ok row3 =>
                Except.ok (bucketAdd st.1 ts row3, ig2)

/-- The reader loop of lines 144-181 over the parsed rows, starting from the
two empty dicts. -/
def loadRows (p : LoadParams) (rows : List Row) :
    Except PyErr (Bucket × Bucket) :=
  rows.foldlM (processRow p) ([], [])

/-- The fate of the file handle `fp` opened at lines 136-139. -/
inductive HandleState where
  /-- an exception was raised before `open` -/
  | notOpened
  /-- an exception propagated after `open` without reaching `fp.close()` -/
  | openLeaked
  /-- `fp.close()` (line 182) ran -/
  | closed
  deriving DecidableEq, Repr

/-- Control-flow skeleton of the whole of `_load_simple_text_file`
(lines 127-183): the configuration guards, the handle open, dialect sniffing
(`sniffOk` abstracts whether `csv.Sniffer().sniff` succeeds on this input),
the row loop, and the single `fp.close()` on the fall-through path. The
second component reports what happened to the handle. -/
def loadSimpleTextFile (p : LoadParams) (sniffOk : Bool) (rows : List Row) :
    Except PyErr (Bucket × Bucket) × HandleState :=
  if p.remove_negative_ids = true ∧ p.id_col = none then
    (Except.error PyErr.configError, HandleState.notOpened)
  else if p.is_zipped = true ∧ p.zip_file_given = false then
    (Except.error PyErr.configError, HandleState.notOpened)
  else if sniffOk = false then
    (Except.error PyErr.sniffError, HandleState.openLeaked)
  else
    match loadRows p rows with
    | Except.error e => (Except.error e, HandleState.openLeaked)
    | Except.ok r => (Except.ok r, HandleState.closed)

/-! ### `_calculate_box_ious` (lines 185-222)

numpy float arrays become lists of rational boxes.  Every numpy operation in
the function is element-wise over the broadcast (i, j) grid, so the matrix
entry at (i, j) depends only on `bboxes1[i]` and `bboxes2[j]` and the
computation is embedded pairwise. -/

/-- A box row of four coordinates. In `x0y0x1y1` layout the fields are the
two corners; in `xywh` layout fields `x1`/`y1` initially hold width/height. -/
structure Box where
  x0 : ℚ
  y0 : ℚ
  x1 : ℚ
  y1 : ℚ
  deriving DecidableEq, Repr

/-- Lines 197-200: in-place conversion `xywh → x0y0x1y1`
(`b[:, 2] = b[:, 0] + b[:, 2]; b[:, 3] = b[:, 1] + b[:, 3]`). -/
def xywhToCorners (b : Box) : Box :=
  { x0 := b.x0, y0 := b.y0, x1 := b.x0 + b.x1, y1 := b.y0 + b.y1 }

/-- Line 207 for one (i, j) pair: clamped overlap width times clamped
overlap height. -/
def inter (a b : Box) : ℚ :=
  max (min a.x1 b.x1 - max a.x0 b.x0) 0 * max (min a.y1 b.y1 - max a.y0 b.y0) 0

/-- Lines 208 / 215: signed box area `(x1 - x0) * (y1 - y0)`. -/
def area (b : Box) : ℚ :=
  (b.x1 - b.x0) * (b.y1 - b.y0)

/-- Line 216: `union = area1 + area2 - intersection` before any masking. -/
def unionRaw (a b : Box) : ℚ :=
  area a + area b - inter a b

/-- Lines 217-219: the numerator after zeroing rows with `area1 <= 0`,
columns with `area2 <= 0`, and entries with `union <= 0`. -/
def iouNumer (a b : Box) : ℚ :=
  if area a ≤ 0 ∨ area b ≤ 0 ∨ unionRaw a b ≤ 0 then 0 else inter a b

/-- Line 220: `union[union <= 0] = 1`. -/
def iouDenom (a b : Box) : ℚ :=
  if unionRaw a b ≤ 0 then 1 else unionRaw a b

/-- Line 221: one IoU matrix entry. -/
def iouEntry (a b : Box) : ℚ :=
  iouNumer a b / iouDenom a b

/-- Lines 211-213: one IoA matrix entry — `intersection / area1` on rows with
`area1 > 0`, and the `np.zeros_like` value 0 elsewhere (no division there). -/
def ioaEntry (a b : Box) : ℚ :=
  if 0 < area a then inter a b / area a else 0

/-- Lines 204-222 on corner-layout boxes: the full (N × M) matrix. -/
def iousCore (bboxes1 bboxes2 : List Box) (do_ioa : Bool) : List (List ℚ) :=
  bboxes1.map (fun a => bboxes2.map (fun b =>
    if do_ioa then ioaEntry a b else iouEntry a b))

/-- Python's substring containment `sub in s`. -/
def strIn (sub s : String) : Bool :=
  (List.range (s.length + 1)).any
    (fun i => (s.toList.drop i).take sub.length = sub.toList)

/-- Embeds `_calculate_box_ious` (lines 186-222): the format dispatch uses
Python string containment, so `box_format in 'xywh'` converts the boxes and
`box_format not in 'x0y0x1y1'` raises; otherwise the boxes are used as
corners directly. -/
def calculateBoxIous (bboxes1 bboxes2 : List Box) (box_format : String)
    (do_ioa : Bool) : Except PyErr (List (List ℚ)) :=
  if strIn box_format "xywh" then
    Except.ok (iousCore (bboxes1.map xywhToCorners) (bboxes2.map xywhToCorners)
      do_ioa)
  else if !(strIn box_format "x0y0x1y1") then
    Except.error PyErr.unsupportedFormat
  else
    Except.ok (iousCore bboxes1 bboxes2 do_ioa)

/-- Matrix entry accessor used in theorem statements (defaults outside the
proven bounds are never exercised). -/
def matEntry (m : List (List ℚ)) (i j : Nat) : ℚ :=
  (m.getD i []).getD j 0

/-! ### `_check_unique_ids` (lines 224-241) -/

/-- Which of the two ID streams violated uniqueness. -/
inductive IdSide where
  | tracker
  | gt
  deriving DecidableEq, Repr

/-- The payload of the exception raised at lines 233-235 / 239-241: which
stream, the sequence name, and the offending timestep. -/
structure IdError where
  side : IdSide
  seq : String
  time : Nat
  deriving DecidableEq, Repr

/-- The loop of lines 229-241 from timestep `t` on: for each zipped pair,
first the tracker IDs then the gt IDs are checked for a repeated value
(`np.unique` counts with `max(counts) != 1`, guarded by `len > 0`). -/
def checkFrom (seqName : String) (t : Nat) :
    List (List Int × List Int) → Except IdError Unit
  | [] => Except.ok ()
  | (gtIdsT, trackerIdsT) :: rest =>
      if 0 < trackerIdsT.length ∧ ¬ trackerIdsT.Nodup then
        Except.error ⟨IdSide.tracker, seqName, t⟩
      else if 0 < gtIdsT.length ∧ ¬ gtIdsT.Nodup then
        Except.error ⟨IdSide.gt, seqName, t⟩
      else
        checkFrom seqName (t + 1) rest

/-- Embeds `_check_unique_ids`: `data['seq']`, `data['gt_ids']` and
`data['tracker_ids']` are passed as arguments; the loop runs over
`zip(gt_ids, tracker_ids)` with `enumerate`. -/
def checkUniqueIds (seqName : String) (gtIds trackerIds : List (List Int)) :
    Except IdError Unit :=
  checkFrom seqName 0 (gtIds.zip trackerIds)

/-! ## Helper lemmas -/

theorem bucketGet_of_not_mem {b : Bucket} {k : String}
    (h : (b.map Prod.fst).contains k = false) : bucketGet b k = [] := by
  induction b with
  | nil => rfl
  | cons p r ih =>
    rcases p with ⟨k', v⟩
    simp only [List.map_cons, List.contains_cons, Bool.or_eq_false_iff] at h
    have hk : k' ≠ k := by
      intro hEq
      simp [hEq] at h
    simp [bucketGet, hk, ih h.2]

theorem bucketGet_map_append (b : Bucket) (k k' : String) (row : Row) :
    bucketGet (b.map (fun p => (p.1, if p.1 = k then p.2 ++ [row] else p.2))) k'
      = if k' = k ∧ (b.map Prod.fst).contains k' = true
        then bucketGet b k' ++ [row] else bucketGet b k' := by
  induction b with
  | nil => simp [bucketGet]
  | cons p r ih =>
    rcases p with ⟨k0, v⟩
    by_cases hk0 : k0 = k'
    · subst hk0
      by_cases hkk : k0 = k
      · simp [bucketGet, hkk]
      · simp [bucketGet, hkk, fun h : k0 = k => hkk h]
    · simp only [List.map_cons, bucketGet, hk0, if_false, List.contains_cons]
      have hbeq : (k' == k0) = false := beq_eq_false_iff_ne.mpr (Ne.symm hk0)
      rw [ih, hbeq, Bool.false_or]

theorem bucketGet_bucketAdd_same (b : Bucket) (k : String) (row : Row) :
    bucketGet (bucketAdd b k row) k = bucketGet b k ++ [row] := by
  unfold bucketAdd
  by_cases hmem : (b.map Prod.fst).contains k
  · rw [if_pos hmem, bucketGet_map_append, if_pos ⟨rfl, hmem⟩]
  · simp only [Bool.not_eq_true] at hmem
    rw [if_neg (fun hc => by rw [hmem] at hc; exact absurd hc (by decide))]
    rw [bucketGet_of_not_mem hmem]
    induction b with
    | nil => simp [bucketGet]
    | cons p r ih =>
      rcases p with ⟨k', v⟩
      simp only [List.map_cons, List.contains_cons, Bool.or_eq_false_iff] at hmem
      have hk : k' ≠ k := by
        intro hEq
        simp [hEq] at hmem
      simpa [bucketGet, hk] using ih hmem.2

theorem bucketGet_bucketAdd_ne (b : Bucket) (k k' : String) (row : Row)
    (h : k' ≠ k) : bucketGet (bucketAdd b k row) k' = bucketGet b k' := by
  unfold bucketAdd
  by_cases hmem : (b.map Prod.fst).contains k
  · rw [if_pos hmem, bucketGet_map_append, if_neg (fun hc => h hc.1)]
  · simp only [Bool.not_eq_true] at hmem
    rw [if_neg (fun hc => by rw [hmem] at hc; exact absurd hc (by decide))]
    induction b with
    | nil => simp [bucketGet, Ne.symm h]
    | cons p r ih =>
      rcases p with ⟨k0, v⟩
      simp only [List.map_cons, List.contains_cons, Bool.or_eq_false_iff] at hmem
      by_cases hk0 : k0 = k'
      · simp [bucketGet, hk0]
      · simp only [List.cons_append, bucketGet, hk0, if_false]
        simpa [bucketGet, Ne.symm h, hk0] using ih hmem.2

theorem dget_append {V : Type} (a b : List (String × V)) (k : String) :
    dget (a ++ b) k = ((dget a k).orElse (fun _ => dget b k)) := by
  induction a with
  | nil => simp [dget, Option.orElse]
  | cons p r ih =>
    rcases p with ⟨k', v⟩
    by_cases hk : k' = k
    · simp [dget, hk, Option.orElse]
    · simp [dget, hk, ih]

theorem dget_map_update {V : Type} (a b : List (String × V)) (k : String) :
    dget (a.map (fun p => match dget b p.1 with
      | some v => (p.1, v)
      | none => p)) k
    = match dget a k with
      | some v => match dget b k with
        | some w => some w
        | none => some v
      | none => none := by
  induction a with
  | nil => simp [dget]
  | cons p r ih =>
    rcases p with ⟨k', v⟩
    by_cases hk : k' = k
    · subst hk
      rcases hb : dget b k' with _ | w <;> simp [dget, hb]
    · rcases hb : dget b k' with _ | w <;> simp [dget, hb, hk, ih]

theorem dget_filter_not_in {V : Type} (a b : List (String × V)) (k : String)
    (h : dget a k = none) :
    dget (b.filter (fun p => (dget a p.1).isNone)) k = dget b k := by
  induction b with
  | nil => rfl
  | cons p r ih =>
    rcases p with ⟨k', v⟩
    by_cases hk : k' = k
    · subst hk
      simp [dget, h, List.filter_cons, ih]
    · by_cases ha : (dget a k').isNone
      · simp [List.filter_cons, ha, dget, hk, ih]
      · simp [List.filter_cons, ha, dget, hk, ih]

/-- Merge semantics of `{**a, **b}`: `b` (the second dict) wins on collision. -/
theorem dget_dictUpdate {V : Type} (a b : List (String × V)) (k : String) :
    dget (dictUpdate a b) k
      = ((dget b k).orElse (fun _ => dget a k)) := by
  unfold dictUpdate
  rw [dget_append, dget_map_update]
  rcases ha : dget a k with _ | v
  · rcases hb : dget b k with _ | w
    · simp [Option.orElse, dget_filter_not_in a b k ha, hb]
    · simp [Option.orElse, dget_filter_not_in a b k ha, hb]
  · rcases hb : dget b k with _ | w
    · simp [Option.orElse]
    · simp [Option.orElse]

theorem dget_dset_same {V : Type} (m : List (String × V)) (k : String) (v : V) :
    dget (dset m k v) k = some v := by
  unfold dset
  by_cases hs : (dget m k).isSome
  · rw [if_pos hs]
    rcases hm : dget m k with _ | w
    · simp [hm] at hs
    · clear hs
      induction m with
      | nil => simp [dget] at hm
      | cons p r ih =>
        rcases p with ⟨k', u⟩
        by_cases hk : k' = k
        · simp [dget, hk]
        · simp only [dget, hk, if_false] at hm
          simp [dget, hk, ih hm]
  · rw [if_neg hs]
    simp only [Option.not_isSome_iff_eq_none] at hs
    rw [dget_append, hs]
    simp [Option.orElse, dget]

theorem dget_map_set {V : Type} (m : List (String × V)) (k k' : String) (v : V)
    (h : k' ≠ k) :
    dget (m.map (fun p => (p.1, if p.1 = k then v else p.2))) k' = dget m k' := by
  induction m with
  | nil => rfl
  | cons p r ih =>
    rcases p with ⟨k0, u⟩
    by_cases hk0 : k0 = k'
    · subst hk0
      simp [dget, fun hEq : k0 = k => h hEq]
    · simp [dget, hk0, ih]

theorem dget_dset_ne {V : Type} (m : List (String × V)) (k k' : String) (v : V)
    (h : k' ≠ k) : dget (dset m k v) k' = dget m k' := by
  unfold dset
  by_cases hs : (dget m k).isSome
  · rw [if_pos hs, dget_map_set m k k' v h]
  · rw [if_neg hs]
    rw [dget_append]
    rcases hm : dget m k' with _ | w
    · simp [hm, Option.orElse, dget, Ne.symm h]
    · simp [hm, Option.orElse]

/-- Shape of any successful `getRawSeqData` run: both detection fields were
read off the merged record and the result is that record with
`similarity_scores` assigned. -/
theorem getRawSeqData_ok {D M : Type} (calcSim : List D → List D → M)
    (rawGtData rawTrackerData : RawRec D M) (res : RawRec D M)
    (h : getRawSeqData calcSim rawGtData rawTrackerData = Except.ok res) :
    ∃ gd td,
      getDetsField (mergeRawData rawTrackerData rawGtData) "gt_dets"
        = Except.ok gd ∧
      getDetsField (mergeRawData rawTrackerData rawGtData) "tracker_dets"
        = Except.ok td ∧
      res = dset (mergeRawData rawTrackerData rawGtData) "similarity_scores"
        (PyVal.mats ((gd.zip td).map (fun p => calcSim p.1 p.2))) := by
  unfold getRawSeqData at h
  rcases hgd : getDetsField (mergeRawData rawTrackerData rawGtData) "gt_dets"
    with e | gd
  · rw [hgd] at h
    exact absurd h (by simp)
  · rcases htd : getDetsField (mergeRawData rawTrackerData rawGtData)
      "tracker_dets" with e | td
    · rw [hgd, htd] at h
      exact absurd h (by simp)
    · rw [hgd, htd] at h
      injection h with h
      exact ⟨gd, td, rfl, rfl, h.symm⟩

/-- The converse direction: when both detection fields read successfully,
`getRawSeqData` succeeds with the assigned record. -/
theorem getRawSeqData_ok_of_fields {D M : Type} (calcSim : List D → List D → M)
    (rawGtData rawTrackerData : RawRec D M) (gd td : List (List D))
    (hgd : getDetsField (mergeRawData rawTrackerData rawGtData) "gt_dets"
      = Except.ok gd)
    (htd : getDetsField (mergeRawData rawTrackerData rawGtData) "tracker_dets"
      = Except.ok td) :
    getRawSeqData calcSim rawGtData rawTrackerData
      = Except.ok (dset (mergeRawData rawTrackerData rawGtData)
          "similarity_scores"
          (PyVal.mats ((gd.zip td).map (fun p => calcSim p.1 p.2)))) := by
  unfold getRawSeqData
  rw [hgd, htd]

/-! ## Claim theorems -/

/-- Claim C1 (the code violates it): the spec requires a row failing a
`valid_filter` entry to be absent from the normal bucket, but the filter
loop's `continue` (line 170) only skips the inner loop iteration, so the row
`["0", "car"]` — whose column 1 value `"car"` is not in the allow-set
`{"pedestrian"}` — still lands in the normal-detection bucket. -/
theorem c1_valid_filter_is_noop :
    (strLower "car" ∈ (["pedestrian"] : List String) → False) ∧
    loadRows { valid_filter := some [(1, ["pedestrian"])] } [["0", "car"]]
      = Except.ok ([("0", [["0", "car"]])], []) :=
  ⟨by decide, by rfl⟩

/-- Claim C8 (the code violates it): the dispatch `box_format in 'xywh'`
(line 192) is Python substring containment, so the token `"xy"` — which is
neither of the two supported encodings — is accepted and treated as `xywh`
instead of raising the unsupported-format error. -/
theorem c8_substring_format_accepted :
    ("xy" ≠ "xywh" ∧ "xy" ≠ "x0y0x1y1") ∧
    calculateBoxIous [⟨0, 0, 10, 10⟩] [⟨0, 0, 10, 10⟩] "xy" false
      = Except.ok [[1]] := by
  refine ⟨by decide, ?_⟩
  have hs : strIn "xy" "xywh" = true := by rfl
  simp only [calculateBoxIous, hs, if_true]
  simp only [iousCore, List.map_cons, List.map_nil, xywhToCorners, iouEntry,
    iouNumer, iouDenom, inter, area, unionRaw, Bool.false_eq_true, if_false]
  norm_num

/-- Claim C9, counterexample: when dialect sniffing raises (line 140), the
exception propagates before `fp.close()` (line 182) is reached — there is no
`try`/`finally` or `with` — so on that exit path the opened handle is not
closed, contradicting the claim that every exit path closes it. -/
theorem c9_counterexample_sniff_leak :
    loadSimpleTextFile {} false [["0", "a"]]
      = (Except.error PyErr.sniffError, HandleState.openLeaked) ∧
    HandleState.openLeaked ≠ HandleState.closed :=
  ⟨by rfl, by decide⟩

/-- Claim C9, amended: the handle is closed on the successful path only; an
error during sniffing or during row processing propagates with the handle
still open (and the configuration guards fire before the handle is opened). -/
theorem c9_amended_close_on_success_only (p : LoadParams) (rows : List Row)
    (hcfg : ¬(p.remove_negative_ids = true ∧ p.id_col = none))
    (hzip : ¬(p.is_zipped = true ∧ p.zip_file_given = false)) :
    (loadSimpleTextFile p false rows).2 = HandleState.openLeaked ∧
    (∀ r, loadRows p rows = Except.ok r →
      loadSimpleTextFile p true rows = (Except.ok r, HandleState.closed)) ∧
    (∀ e, loadRows p rows = Except.error e →
      loadSimpleTextFile p true rows = (Except.error e, HandleState.openLeaked)) := by
  refine ⟨?_, ?_, ?_⟩
  · unfold loadSimpleTextFile
    rw [if_neg hcfg, if_neg hzip, if_pos rfl]
  · intro r hr
    unfold loadSimpleTextFile
    rw [if_neg hcfg, if_neg hzip, if_neg (by simp), hr]
  · intro e he
    unfold loadSimpleTextFile
    rw [if_neg hcfg, if_neg hzip, if_neg (by simp), he]

/-- Witness for the amended claim C9 at a concrete input: default parameters,
one well-formed row. -/
theorem c9_amended_witness :
    (¬((({} : LoadParams)).remove_negative_ids = true ∧
        ({} : LoadParams).id_col = none)) ∧
    (loadSimpleTextFile {} false [["0", "a"]]).2 = HandleState.openLeaked ∧
    loadSimpleTextFile {} true [["0", "a"]]
      = (Except.ok ([("0", [["0", "a"]])], []), HandleState.closed) := by
  refine ⟨by decide, ?_, ?_⟩
  · exact (c9_amended_close_on_success_only {} [["0", "a"]]
      (by decide) (by decide)).1
  · exact (c9_amended_close_on_success_only {} [["0", "a"]]
      (by decide) (by decide)).2.1 _ (by rfl)

/-- Claim C3, counterexample: two partial records that disagree on the shared
field `num_timesteps` are merged without any fatal error —
`get_raw_seq_data` returns a merged record (with the gt-side value) instead
of failing. -/
theorem c3_counterexample_no_mismatch_error :
    dget [("num_timesteps", (PyVal.vint 3 : PyVal Nat Nat)),
          ("gt_dets", PyVal.dets [[1]])] "num_timesteps"
      ≠ dget [("num_timesteps", (PyVal.vint 5 : PyVal Nat Nat)),
          ("tracker_dets", PyVal.dets [[9]])] "num_timesteps" ∧
    getRawSeqData (fun a b : List Nat => a.length + b.length)
      [("num_timesteps", PyVal.vint 3), ("gt_dets", PyVal.dets [[1]])]
      [("num_timesteps", PyVal.vint 5), ("tracker_dets", PyVal.dets [[9]])]
      = Except.ok [("num_timesteps", PyVal.vint 3),
          ("tracker_dets", PyVal.dets [[9]]),
          ("gt_dets", PyVal.dets [[1]]),
          ("similarity_scores", PyVal.mats [2])] :=
  ⟨by decide, by rfl⟩

/-- Claim C3, amended: `get_raw_seq_data` performs no agreement check on the
shared fields; for partial records that disagree on `num_timesteps` (or any
shared field) it still returns the merged record, in which the gt-side value
silently wins. -/
theorem c3_amended_merge_without_check {D M : Type}
    (calcSim : List D → List D → M) (rawGtData rawTrackerData : RawRec D M)
    (v w : PyVal D M)
    (hgt : dget rawGtData "num_timesteps" = some v)
    (htr : dget rawTrackerData "num_timesteps" = some w)
    (hne : v ≠ w)
    (gd td : List (List D))
    (hgd : getDetsField (mergeRawData rawTrackerData rawGtData) "gt_dets"
      = Except.ok gd)
    (htd : getDetsField (mergeRawData rawTrackerData rawGtData) "tracker_dets"
      = Except.ok td) :
    ∃ res, getRawSeqData calcSim rawGtData rawTrackerData = Except.ok res ∧
      dget res "num_timesteps" = some v := by
  refine ⟨_, getRawSeqData_ok_of_fields calcSim _ _ gd td hgd htd, ?_⟩
  rw [dget_dset_ne _ _ _ _ (by decide), mergeRawData, dget_dictUpdate, hgt]
  rfl

/-- Witness for the amended claim C3: the concrete disagreeing records of the
counterexample, run through the amended theorem. -/
theorem c3_amended_witness :
    (PyVal.vint 3 : PyVal Nat Nat) ≠ PyVal.vint 5 ∧
    ∃ res, getRawSeqData (fun a b : List Nat => a.length + b.length)
      [("num_timesteps", PyVal.vint 3), ("gt_dets", PyVal.dets [[1]])]
      [("num_timesteps", PyVal.vint 5), ("tracker_dets", PyVal.dets [[9]])]
      = Except.ok res ∧
      dget res "num_timesteps" = some (PyVal.vint 3) :=
  ⟨by decide, c3_amended_merge_without_check
    (fun a b : List Nat => a.length + b.length) _ _ _ _
    (by rfl) (by rfl) (by decide) [[1]] [[9]] (by rfl) (by rfl)⟩

/-- Claim C4: in the merge `{**raw_tracker_data, **raw_gt_data}` (line 82)
the gt-side value wins for every key present in both records, and the winning
value survives into the record `get_raw_seq_data` returns for every such key
other than `similarity_scores` (which line 89 overwrites with the computed
matrices). -/
theorem c4_gt_side_value_wins {D M : Type} (calcSim : List D → List D → M)
    (rawGtData rawTrackerData : RawRec D M) (k : String) (v w : PyVal D M)
    (hgt : dget rawGtData k = some v)
    (htr : dget rawTrackerData k = some w) :
    dget (mergeRawData rawTrackerData rawGtData) k = some v ∧
    (k ≠ "similarity_scores" →
      ∀ res, getRawSeqData calcSim rawGtData rawTrackerData = Except.ok res →
        dget res k = some v) := by
  have hm : dget (mergeRawData rawTrackerData rawGtData) k = some v := by
    rw [mergeRawData, dget_dictUpdate, hgt]
    rfl
  refine ⟨hm, fun hk res hres => ?_⟩
  obtain ⟨gd, td, _, _, hshape⟩ :=
    getRawSeqData_ok calcSim rawGtData rawTrackerData res hres
  rw [hshape, dget_dset_ne _ _ _ _ hk, hm]

/-- Witness for claim C4: a key `"seq"` bound by both concrete records; the
merged record and the returned record both hold the gt-side value. -/
theorem c4_witness :
    dget [("seq", (PyVal.vstr "gtside" : PyVal Nat Nat)),
        ("gt_dets", PyVal.dets [[1]])] "seq" = some (PyVal.vstr "gtside") ∧
    dget [("seq", (PyVal.vstr "trside" : PyVal Nat Nat)),
        ("tracker_dets", PyVal.dets [[9]])] "seq" = some (PyVal.vstr "trside") ∧
    dget (mergeRawData
        [("seq", (PyVal.vstr "trside" : PyVal Nat Nat)),
         ("tracker_dets", PyVal.dets [[9]])]
        [("seq", PyVal.vstr "gtside"), ("gt_dets", PyVal.dets [[1]])]) "seq"
      = some (PyVal.vstr "gtside") :=
  ⟨by rfl, by rfl,
    (c4_gt_side_value_wins (fun a b : List Nat => a.length + b.length)
      [("seq", PyVal.vstr "gtside"), ("gt_dets", PyVal.dets [[1]])]
      [("seq", PyVal.vstr "trside"), ("tracker_dets", PyVal.dets [[9]])]
      "seq" _ _ (by rfl) (by rfl)).1⟩

/-- The check loop passes exactly when every zipped timestep pair has
duplicate-free IDs on both sides (independently of the index accumulator). -/
theorem checkFrom_ok_iff (s : String) (t : Nat)
    (l : List (List Int × List Int)) :
    checkFrom s t l = Except.ok () ↔ ∀ p ∈ l, p.1.Nodup ∧ p.2.Nodup := by
  induction l generalizing t with
  | nil => simp [checkFrom]
  | cons hd rest ih =>
    rcases hd with ⟨gI, tI⟩
    by_cases htr : 0 < tI.length ∧ ¬ tI.Nodup
    · simp only [checkFrom, if_pos htr]
      simp only [List.mem_cons]
      constructor
      · intro h
        cases h
      · intro h
        exact absurd (h (gI, tI) (Or.inl rfl)).2 htr.2
    · by_cases hgt : 0 < gI.length ∧ ¬ gI.Nodup
      · simp only [checkFrom, if_neg htr, if_pos hgt]
        simp only [List.mem_cons]
        constructor
        · intro h
          cases h
        · intro h
          exact absurd (h (gI, tI) (Or.inl rfl)).1 hgt.2
      · simp only [checkFrom, if_neg htr, if_pos, if_neg hgt]
        rw [ih (t + 1)]
        have hgnd : gI.Nodup := by
          rcases Nat.eq_zero_or_pos gI.length with hz | hp
          · rw [List.length_eq_zero.mp hz]
            exact List.nodup_nil
          · by_contra hnd
            exact hgt ⟨hp, hnd⟩
        have htnd : tI.Nodup := by
          rcases Nat.eq_zero_or_pos tI.length with hz | hp
          · rw [List.length_eq_zero.mp hz]
            exact List.nodup_nil
          · by_contra hnd
            exact htr ⟨hp, hnd⟩
        simp [hgnd, htnd]

/-- When the check loop raises, the error carries the sequence name and an
offending zipped index (relative to the start index `t`), and the named side
really has a duplicate there. -/
theorem checkFrom_error (s : String) (t : Nat)
    (l : List (List Int × List Int)) (e : IdError)
    (h : checkFrom s t l = Except.error e) :
    e.seq = s ∧ t ≤ e.time ∧ ∃ gI tI, l.get? (e.time - t) = some (gI, tI) ∧
      (¬ tI.Nodup ∨ ¬ gI.Nodup) := by
  induction l generalizing t with
  | nil => cases h
  | cons hd rest ih =>
    rcases hd with ⟨gI, tI⟩
    by_cases htr : 0 < tI.length ∧ ¬ tI.Nodup
    · simp only [checkFrom, if_pos htr] at h
      injection h with h
      subst h
      exact ⟨rfl, le_refl t, gI, tI, by simp, Or.inl htr.2⟩
    · by_cases hgt : 0 < gI.length ∧ ¬ gI.Nodup
      · simp only [checkFrom, if_neg htr, if_pos hgt] at h
        injection h with h
        subst h
        exact ⟨rfl, le_refl t, gI, tI, by simp, Or.inr hgt.2⟩
      · simp only [checkFrom, if_neg htr, if_neg hgt] at h
        obtain ⟨hs, hle, gI', tI', hget, hdup⟩ := ih (t + 1) h
        refine ⟨hs, le_trans (Nat.le_succ t) hle, gI', tI', ?_, hdup⟩
        have : e.time - t = (e.time - (t + 1)) + 1 := by omega
        rw [this]
        simpa using hget

/-- Claim C7: `_check_unique_ids` passes silently exactly when, at every
timestep, the gt IDs are pairwise distinct and the tracker IDs are pairwise
distinct (an ID shared between the two sides is no violation, as the
condition constrains each side separately); when it raises, the error names
the sequence and an offending timestep at which the named side really
repeats an ID. -/
theorem c7_check_unique_ids (seqName : String)
    (gtIds trackerIds : List (List Int)) :
    (checkUniqueIds seqName gtIds trackerIds = Except.ok () ↔
      ∀ t gI tI, gtIds.get? t = some gI → trackerIds.get? t = some tI →
        gI.Nodup ∧ tI.Nodup) ∧
    (∀ e, checkUniqueIds seqName gtIds trackerIds = Except.error e →
      e.seq = seqName ∧ ∃ gI tI, gtIds.get? e.time = some gI ∧
        trackerIds.get? e.time = some tI ∧ (¬ tI.Nodup ∨ ¬ gI.Nodup)) := by
  constructor
  · rw [checkUniqueIds, checkFrom_ok_iff]
    constructor
    · intro h t gI tI hg ht
      have hmem : (gI, tI) ∈ gtIds.zip trackerIds := by
        rw [List.mem_iff_getElem?]
        refine ⟨t, ?_⟩
        rw [← List.get?_eq_getElem?]
        exact (List.get?_zip_eq_some _ _ _ _).mpr ⟨hg, ht⟩
      exact h (gI, tI) hmem
    · intro h p hp
      rw [List.mem_iff_getElem?] at hp
      obtain ⟨t, hget⟩ := hp
      rw [← List.get?_eq_getElem?, List.get?_zip_eq_some] at hget
      exact h t p.1 p.2 hget.1 hget.2
  · intro e he
    rw [checkUniqueIds] at he
    obtain ⟨hs, hle, gI, tI, hget, hdup⟩ := checkFrom_error _ _ _ _ he
    rw [Nat.sub_zero, List.get?_zip_eq_some] at hget
    exact ⟨hs, gI, tI, hget.1, hget.2, hdup⟩

/-- Witness for claim C7: `tracker_ids[1] = [5, 5]` raises the error naming
timestep 1 and the tracker side, while a record whose gt and tracker streams
share the IDs `1, 2` per timestep (each side duplicate-free) passes. -/
theorem c7_witness :
    checkUniqueIds "seqA" [[1], [2]] [[1], [2]] = Except.ok () ∧
    checkUniqueIds "seqB" [[1], [2]] [[7], [5, 5]]
      = Except.error ⟨IdSide.tracker, "seqB", 1⟩ := by
  refine ⟨?_, by rfl⟩
  exact (c7_check_unique_ids "seqA" [[1], [2]] [[1], [2]]).1.mpr
    (by
      intro t gI tI hg ht
      match t, hg, ht with
      | 0, hg, ht =>
        injection hg with hg
        injection ht with ht
        subst hg; subst ht
        exact ⟨by simp, by simp⟩
      | 1, hg, ht =>
        injection hg with hg
        injection ht with ht
        subst hg; subst ht
        exact ⟨by simp, by simp⟩)

/-- Each matrix entry of `iousCore` is the pairwise entry of the two indexed
boxes. -/
theorem iousCore_entry (bboxes1 bboxes2 : List Box) (do_ioa : Bool)
    (i j : Nat) (hi : i < bboxes1.length) (hj : j < bboxes2.length) :
    matEntry (iousCore bboxes1 bboxes2 do_ioa) i j
      = if do_ioa then ioaEntry bboxes1[i] bboxes2[j]
        else iouEntry bboxes1[i] bboxes2[j] := by
  have houter : (bboxes1.map (fun a => bboxes2.map
        (fun b => if do_ioa then ioaEntry a b else iouEntry a b))).getD i []
      = bboxes2.map (fun b => if do_ioa then ioaEntry bboxes1[i] b
          else iouEntry bboxes1[i] b) := by
    rw [List.getD_eq_getElem?_getD, List.getElem?_map,
      List.getElem?_eq_getElem hi]
    rfl
  have hinner : (bboxes2.map (fun b => if do_ioa then ioaEntry bboxes1[i] b
        else iouEntry bboxes1[i] b)).getD j 0
      = if do_ioa then ioaEntry bboxes1[i] bboxes2[j]
        else iouEntry bboxes1[i] bboxes2[j] := by
    rw [List.getD_eq_getElem?_getD, List.getElem?_map,
      List.getElem?_eq_getElem hj]
    rfl
  unfold iousCore matEntry
  rw [houter, hinner]

/-- The corner-format dispatch of `calculateBoxIous` reaches the core
computation unchanged: `"x0y0x1y1"` is not a substring of `"xywh"` but is one
of itself. -/
theorem calculateBoxIous_corner (bboxes1 bboxes2 : List Box) (do_ioa : Bool) :
    calculateBoxIous bboxes1 bboxes2 "x0y0x1y1" do_ioa
      = Except.ok (iousCore bboxes1 bboxes2 do_ioa) := by
  have h1 : strIn "x0y0x1y1" "xywh" = false := by rfl
  have h2 : strIn "x0y0x1y1" "x0y0x1y1" = true := by rfl
  rw [calculateBoxIous, h1, h2]
  rfl

/-- Claim C5: degenerate-geometry policy of `_calculate_box_ious`. A box
with non-positive area zeroes its whole row (`bboxes1`) and, in IoU mode,
its whole column (`bboxes2`); the IoU divisor is the union clamped to 1
whenever it is non-positive, hence always strictly positive (no division by
zero); in IoA mode a non-positive `area1` row is left at the `np.zeros_like`
value without dividing. -/
theorem c5_degenerate_box_policy (bboxes1 bboxes2 : List Box) (i j : Nat)
    (hi : i < bboxes1.length) (hj : j < bboxes2.length) :
    calculateBoxIous bboxes1 bboxes2 "x0y0x1y1" false
      = Except.ok (iousCore bboxes1 bboxes2 false) ∧
    calculateBoxIous bboxes1 bboxes2 "x0y0x1y1" true
      = Except.ok (iousCore bboxes1 bboxes2 true) ∧
    (area bboxes1[i] ≤ 0 →
      matEntry (iousCore bboxes1 bboxes2 false) i j = 0) ∧
    (area bboxes2[j] ≤ 0 →
      matEntry (iousCore bboxes1 bboxes2 false) i j = 0) ∧
    (unionRaw bboxes1[i] bboxes2[j] ≤ 0 →
      iouDenom bboxes1[i] bboxes2[j] = 1) ∧
    0 < iouDenom bboxes1[i] bboxes2[j] ∧
    (area bboxes1[i] ≤ 0 →
      matEntry (iousCore bboxes1 bboxes2 true) i j = 0) := by
  have hent := iousCore_entry bboxes1 bboxes2 false i j hi hj
  have hent2 := iousCore_entry bboxes1 bboxes2 true i j hi hj
  simp only [Bool.false_eq_true, if_false, if_true] at hent hent2
  refine ⟨calculateBoxIous_corner _ _ false, calculateBoxIous_corner _ _ true,
    ?_, ?_, ?_, ?_, ?_⟩
  · intro ha
    rw [hent, iouEntry, iouNumer, if_pos (Or.inl ha), zero_div]
  · intro ha
    rw [hent, iouEntry, iouNumer, if_pos (Or.inr (Or.inl ha)), zero_div]
  · intro hu
    rw [iouDenom, if_pos hu]
  · rw [iouDenom]
    by_cases hu : unionRaw bboxes1[i] bboxes2[j] ≤ 0
    · rw [if_pos hu]
      exact one_pos
    · rw [if_neg hu]
      exact lt_of_not_le hu
  · intro ha
    rw [hent2, ioaEntry, if_neg (not_lt_of_le ha)]

/-- Witness for claim C5: a zero-width first box against a proper second box
— the degenerate row is exactly 0, the clamped divisor is positive, and both
dispatch equations evaluate. -/
theorem c5_witness :
    (0 < 1 ∧ area (⟨0, 0, 0, 5⟩ : Box) ≤ 0) ∧
    matEntry (iousCore [⟨0, 0, 0, 5⟩] [⟨0, 0, 2, 2⟩] false) 0 0 = 0 ∧
    matEntry (iousCore [⟨0, 0, 0, 5⟩] [⟨0, 0, 2, 2⟩] true) 0 0 = 0 ∧
    0 < iouDenom (⟨0, 0, 0, 5⟩ : Box) ⟨0, 0, 2, 2⟩ := by
  have harea : area (⟨0, 0, 0, 5⟩ : Box) ≤ 0 := by
    rw [area]
    norm_num
  have h := c5_degenerate_box_policy [⟨0, 0, 0, 5⟩] [⟨0, 0, 2, 2⟩] 0 0
    (by norm_num) (by norm_num)
  exact ⟨⟨one_pos, harea⟩, h.2.2.1 harea, h.2.2.2.2.2.2 harea, h.2.2.2.2.2.1⟩

/-- Claim C2: when the gt-side record carries `gt_dets` (and `gt_ids`) of
length `num_timesteps` and the tracker-side record carries `tracker_dets`
(and `tracker_ids`) of the same length — with no cross-side bindings of the
other side's fields — `get_raw_seq_data` succeeds and stores under
`similarity_scores` exactly one matrix per timestep, in order: the entry at
`t` is `calcSim gt_dets[t] tracker_dets[t]`, and its shape is
`(len(gt_ids[t]), len(tracker_ids[t]))` whenever the detection lists are
aligned with the ID arrays and `calcSim` returns a
`(len(gt_dets_t), len(tracker_dets_t))` matrix. -/
theorem c2_similarity_scores_per_timestep {D M : Type}
    (calcSim : List D → List D → M) (shape : M → Nat × Nat)
    (hshape : ∀ a b, shape (calcSim a b) = (a.length, b.length))
    (rawGtData rawTrackerData : RawRec D M) (n : Nat)
    (gd td : List (List D)) (gids tids : List (List Int))
    (hgd : dget rawGtData "gt_dets" = some (PyVal.dets gd))
    (hgdn : dget rawGtData "tracker_dets" = none)
    (htd : dget rawTrackerData "tracker_dets" = some (PyVal.dets td))
    (hgids : dget rawGtData "gt_ids" = some (PyVal.ids gids))
    (htidsn : dget rawGtData "tracker_ids" = none)
    (htids : dget rawTrackerData "tracker_ids" = some (PyVal.ids tids))
    (hgdlen : gd.length = n) (htdlen : td.length = n)
    (halignG : ∀ t gI dl, gids.get? t = some gI → gd.get? t = some dl →
      dl.length = gI.length)
    (halignT : ∀ t tI dl, tids.get? t = some tI → td.get? t = some dl →
      dl.length = tI.length) :
    ∃ scores : List M,
      getRawSeqData calcSim rawGtData rawTrackerData
        = Except.ok (dset (mergeRawData rawTrackerData rawGtData)
            "similarity_scores" (PyVal.mats scores)) ∧
      dget (dset (mergeRawData rawTrackerData rawGtData) "similarity_scores"
        (PyVal.mats scores)) "similarity_scores" = some (PyVal.mats scores) ∧
      dget (mergeRawData rawTrackerData rawGtData) "gt_ids"
        = some (PyVal.ids gids) ∧
      dget (mergeRawData rawTrackerData rawGtData) "tracker_ids"
        = some (PyVal.ids tids) ∧
      scores.length = n ∧
      (∀ t, t < n → ∀ g tr, gd.get? t = some g → td.get? t = some tr →
        scores.get? t = some (calcSim g tr)) ∧
      (∀ t, t < n → ∀ gI tI, gids.get? t = some gI → tids.get? t = some tI →
        (scores.get? t).map shape = some (gI.length, tI.length)) := by
  have hmgd : dget (mergeRawData rawTrackerData rawGtData) "gt_dets"
      = some (PyVal.dets gd) := by
    rw [mergeRawData, dget_dictUpdate, hgd]
    rfl
  have hmtd : dget (mergeRawData rawTrackerData rawGtData) "tracker_dets"
      = some (PyVal.dets td) := by
    rw [mergeRawData, dget_dictUpdate, hgdn, htd]
    rfl
  have hfg : getDetsField (mergeRawData rawTrackerData rawGtData) "gt_dets"
      = Except.ok gd := by
    rw [getDetsField, hmgd]
  have hft : getDetsField (mergeRawData rawTrackerData rawGtData)
      "tracker_dets" = Except.ok td := by
    rw [getDetsField, hmtd]
  refine ⟨(gd.zip td).map (fun p => calcSim p.1 p.2),
    getRawSeqData_ok_of_fields calcSim _ _ gd td hfg hft,
    dget_dset_same _ _ _, ?_, ?_, ?_, ?_, ?_⟩
  · rw [mergeRawData, dget_dictUpdate, hgids]
    rfl
  · rw [mergeRawData, dget_dictUpdate, htidsn, htids]
    rfl
  · rw [List.length_map, List.length_zip, hgdlen, htdlen, Nat.min_self]
  · intro t ht g tr hg htr
    rw [List.get?_map, (List.get?_zip_eq_some _ _ (g, tr) _).mpr ⟨hg, htr⟩]
    rfl
  · intro t ht gI tI hgI htI
    have hg : gd.get? t = some gd[t] := by
      rw [List.get?_eq_getElem?]
      exact List.getElem?_eq_getElem (hgdlen ▸ ht)
    have htr : td.get? t = some td[t] := by
      rw [List.get?_eq_getElem?]
      exact List.getElem?_eq_getElem (htdlen ▸ ht)
    rw [List.get?_map, (List.get?_zip_eq_some _ _ (gd[t], td[t]) _).mpr
      ⟨hg, htr⟩, Option.map_some', Option.map_some', hshape,
      halignG t gI gd[t] hgI hg, halignT t tI td[t] htI htr]

/-- Witness for claim C2 at concrete records: two timesteps, with `D = Nat`
dets and the shape-returning `calcSim`. -/
theorem c2_witness :
    ∃ scores : List (Nat × Nat),
      getRawSeqData (fun a b : List Nat => (a.length, b.length))
        [("num_timesteps", PyVal.vint 2), ("gt_dets", PyVal.dets [[1], [2, 3]]),
         ("gt_ids", PyVal.ids [[10], [20, 30]])]
        [("num_timesteps", PyVal.vint 2),
         ("tracker_dets", PyVal.dets [[4, 5], [6]]),
         ("tracker_ids", PyVal.ids [[40, 50], [60]])]
        = Except.ok (dset (mergeRawData
            [("num_timesteps", PyVal.vint 2),
             ("tracker_dets", PyVal.dets [[4, 5], [6]]),
             ("tracker_ids", PyVal.ids [[40, 50], [60]])]
            [("num_timesteps", PyVal.vint 2),
             ("gt_dets", PyVal.dets [[1], [2, 3]]),
             ("gt_ids", PyVal.ids [[10], [20, 30]])])
            "similarity_scores" (PyVal.mats scores)) ∧
      scores.length = 2 ∧
      scores.get? 0 = some (1, 2) ∧ scores.get? 1 = some (2, 1) := by
  obtain ⟨scores, hok, _, _, _, hlen, hval, _⟩ :=
    c2_similarity_scores_per_timestep
      (fun a b : List Nat => (a.length, b.length)) id (fun a b => rfl)
      [("num_timesteps", PyVal.vint 2), ("gt_dets", PyVal.dets [[1], [2, 3]]),
       ("gt_ids", PyVal.ids [[10], [20, 30]])]
      [("num_timesteps", PyVal.vint 2),
       ("tracker_dets", PyVal.dets [[4, 5], [6]]),
       ("tracker_ids", PyVal.ids [[40, 50], [60]])]
      2 [[1], [2, 3]] [[4, 5], [6]] [[10], [20, 30]] [[40, 50], [60]]
      (by rfl) (by rfl) (by rfl) (by rfl) (by rfl) (by rfl) (by rfl) (by rfl)
      (by
        intro t gI dl hgI hdl
        match t, hgI, hdl with
        | 0, hgI, hdl =>
          injection hgI with hgI
          injection hdl with hdl
          subst hgI; subst hdl
          rfl
        | 1, hgI, hdl =>
          injection hgI with hgI
          injection hdl with hdl
          subst hgI; subst hdl
          rfl)
      (by
        intro t tI dl htI hdl
        match t, htI, hdl with
        | 0, htI, hdl =>
          injection htI with htI
          injection hdl with hdl
          subst htI; subst hdl
          rfl
        | 1, htI, hdl =>
          injection htI with htI
          injection hdl with hdl
          subst htI; subst hdl
          rfl)
  exact ⟨scores, hok, hlen,
    hval 0 (by decide) [1] [4, 5] (by rfl) (by rfl),
    hval 1 (by decide) [2, 3] [6] (by rfl) (by rfl)⟩

/-- Once `is_ignored` is set, it stays set, and the remaining ignore-filter
entries can only append further rows under the same timestep key. -/
theorem ignoreLoop_true_appends (cf : ConvFilter) (ts : String)
    (l : ColFilter) (row : Row) (ig : Bucket)
    (row' : Row) (ig' : Bucket) (flag' : Bool)
    (hok : ignoreLoop cf ts l row ig true = Except.ok (row', ig', flag')) :
    flag' = true ∧ ∃ ap, bucketGet ig' ts = bucketGet ig ts ++ ap := by
  induction l generalizing row ig with
  | nil =>
    injection hok with hok
    injection hok with h1 hok
    injection hok with h2 h3
    subst h2
    exact ⟨h3.symm, [], by simp⟩
  | cons hd rest ih =>
    rcases hd with ⟨k, vs⟩
    rcases hv : row.get? k with _ | v
    · simp only [ignoreLoop, hv] at hok
      cases hok
    · simp only [ignoreLoop, hv] at hok
      by_cases hin : strLower v ∈ vs
      · rw [if_pos hin] at hok
        rcases hcv : convertRow cf row with e | row2
        · rw [hcv] at hok
          cases hok
        · rw [hcv] at hok
          obtain ⟨hflag, ap, hap⟩ := ih row2 (bucketAdd ig ts row2) hok
          refine ⟨hflag, [row2] ++ ap, ?_⟩
          rw [hap, bucketGet_bucketAdd_same, List.append_assoc]
      · rw [if_neg hin] at hok
        exact ih row ig hok

/-- If some ignore-filter entry matches the row as it stood at loop entry and
the loop finishes without an exception, then the flag comes out set and at
least one row was appended to the ignore bucket under `ts`. -/
theorem ignoreLoop_match_sets_flag (cf : ConvFilter) (ts : String)
    (l : ColFilter) (row : Row) (ig : Bucket)
    (row' : Row) (ig' : Bucket) (flag' : Bool)
    (k : Nat) (vs : List String) (v : String)
    (hmem : (k, vs) ∈ l) (hcol : row.get? k = some v)
    (hv : strLower v ∈ vs)
    (hok : ignoreLoop cf ts l row ig false = Except.ok (row', ig', flag')) :
    flag' = true ∧ ∃ ap, ap ≠ [] ∧ bucketGet ig' ts = bucketGet ig ts ++ ap := by
  induction l generalizing ig with
  | nil => cases hmem
  | cons hd rest ih =>
    rcases hd with ⟨k0, vs0⟩
    rcases hv0 : row.get? k0 with _ | v0
    · simp only [ignoreLoop, hv0] at hok
      cases hok
    · simp only [ignoreLoop, hv0] at hok
      by_cases hin : strLower v0 ∈ vs0
      · rw [if_pos hin] at hok
        rcases hcv : convertRow cf row with e | row2
        · rw [hcv] at hok
          cases hok
        · rw [hcv] at hok
          obtain ⟨hflag, ap, hap⟩ := ignoreLoop_true_appends cf ts rest row2
            (bucketAdd ig ts row2) row' ig' flag' hok
          refine ⟨hflag, [row2] ++ ap, by simp, ?_⟩
          rw [hap, bucketGet_bucketAdd_same, List.append_assoc]
      · rw [if_neg hin] at hok
        rcases List.mem_cons.mp hmem with hEq | hmem'
        · injection hEq with hk hvs
          subst hk
          subst hvs
          rw [hcol] at hv0
          injection hv0 with hv0
          subst hv0
          exact absurd hv hin
        · exact ih ig hmem' hok

/-- Claim C6: a row matching at least one `crowd_ignore_filter` entry is
routed to the ignore bucket under its timestep token and leaves the
normal-detection bucket untouched — irrespective of `valid_filter`,
`remove_negative_ids` or the id value, since the loop body `continue`s
(line 164-165) before any of those are consulted. -/
theorem c6_crowd_ignore_isolation (p : LoadParams)
    (readData ignoreData readData' ignoreData' : Bucket) (row : Row)
    (k : Nat) (vs : List String) (v : String)
    (hmem : (k, vs) ∈ p.cif)
    (hcol : (stripRow row).get? k = some v)
    (hv : strLower v ∈ vs)
    (hok : processRow p (readData, ignoreData) row
      = Except.ok (readData', ignoreData')) :
    readData' = readData ∧
    ∃ ts, (stripRow row).get? p.time_col = some ts ∧
      ∃ ap, ap ≠ [] ∧
        bucketGet ignoreData' ts = bucketGet ignoreData ts ++ ap := by
  rcases hlast : row.getLast? with _ | lastv
  · simp only [processRow, hlast] at hok
    cases hok
  · simp only [processRow, hlast] at hok
    rcases hts : (stripRow row).get? p.time_col with _ | ts
    · simp only [hts] at hok
      cases hok
    · simp only [hts] at hok
      rcases hloop : ignoreLoop p.cvf ts p.cif (stripRow row) ignoreData false
        with e | ⟨row2, ig2, flag⟩
      · simp only [hloop] at hok
        cases hok
      · simp only [hloop] at hok
        obtain ⟨hflag, ap, hapne, hap⟩ := ignoreLoop_match_sets_flag p.cvf ts
          p.cif (stripRow row) ignoreData row2 ig2 flag k vs v hmem hcol hv
          hloop
        subst hflag
        rw [if_pos rfl] at hok
        injection hok with hok
        injection hok with h1 h2
        subst h2
        exact ⟨h1.symm, ts, rfl, ap, hapne, hap⟩

/-- Witness for claim C6: a row matching the ignore filter on column 1,
satisfying the `valid_filter` on the same column and carrying a non-negative
id, goes only to the ignore bucket. -/
theorem c6_witness :
    ((1, ["car"]) ∈ ({ crowd_ignore_filter := some [(1, ["car"])], valid_filter := some [(1, ["car"])], id_col := some 2, remove_negative_ids := true } : LoadParams).cif) ∧
    processRow { crowd_ignore_filter := some [(1, ["car"])], valid_filter := some [(1, ["car"])], id_col := some 2, remove_negative_ids := true } ([], []) ["0", "car", "7"]
      = Except.ok ([], [("0", [["0", "car", "7"]])]) ∧
    ([] : Bucket) = [] ∧
    ∃ ts, (stripRow ["0", "car", "7"]).get? 0 = some ts ∧
      ∃ ap, ap ≠ [] ∧
        bucketGet [("0", [["0", "car", "7"]])] ts = bucketGet [] ts ++ ap := by
  refine ⟨by decide, by rfl, ?_⟩
  have h := c6_crowd_ignore_isolation
    { crowd_ignore_filter := some [(1, ["car"])], valid_filter := some [(1, ["car"])], id_col := some 2, remove_negative_ids := true }
    [] [] [] [("0", [["0", "car", "7"]])] ["0", "car", "7"]
    1 ["car"] "car" (by decide) (by rfl) (by decide) (by rfl)
  exact ⟨h.1, h.2⟩

/-- The number of `crowd_ignore_filter` entries a (fixed) row matches. -/
def countMatches (fil : ColFilter) (row : Row) : Nat :=
  (fil.filter (fun kv =>
    match row.get? kv.1 with
    | some v => decide (strLower v ∈ kv.2)
    | none => false)).length

/-- With an empty convert filter the ignore loop never alters the row, and it
appends exactly one copy of the row per matching filter entry. -/
theorem ignoreLoop_nil_conv (ts : String) (l : ColFilter) (row : Row)
    (ig : Bucket) (flag : Bool) (row' : Row) (ig' : Bucket) (flag' : Bool)
    (hok : ignoreLoop [] ts l row ig flag = Except.ok (row', ig', flag')) :
    row' = row ∧
    bucketGet ig' ts
      = bucketGet ig ts ++ List.replicate (countMatches l row) row ∧
    flag' = (flag || decide (0 < countMatches l row)) := by
  induction l generalizing ig flag with
  | nil =>
    injection hok with hok
    injection hok with h1 hok
    injection hok with h2 h3
    subst h1
    subst h2
    subst h3
    exact ⟨rfl, by simp [countMatches], by simp [countMatches]⟩
  | cons hd rest ih =>
    rcases hd with ⟨k0, vs0⟩
    rcases hv0 : row.get? k0 with _ | v0
    · simp only [ignoreLoop, hv0] at hok
      cases hok
    · simp only [ignoreLoop, hv0] at hok
      by_cases hin : strLower v0 ∈ vs0
      · rw [if_pos hin] at hok
        have hv0' : row[k0]? = some v0 := by
          rw [← List.get?_eq_getElem?]
          exact hv0
        have hcount : countMatches ((k0, vs0) :: rest) row
            = countMatches rest row + 1 := by
          simp [countMatches, List.filter_cons, hv0', hin]
        obtain ⟨h1, h2, h3⟩ := ih (bucketAdd ig ts row) true hok
        refine ⟨h1, ?_, ?_⟩
        · rw [h2, bucketGet_bucketAdd_same, hcount, List.append_assoc]
          congr 1
        · rw [h3, hcount]
          simp
      · rw [if_neg hin] at hok
        have hv0' : row[k0]? = some v0 := by
          rw [← List.get?_eq_getElem?]
          exact hv0
        have hcount : countMatches ((k0, vs0) :: rest) row
            = countMatches rest row := by
          simp [countMatches, List.filter_cons, hv0', hin]
        obtain ⟨h1, h2, h3⟩ := ih ig flag hok
        exact ⟨h1, hcount ▸ h2, hcount ▸ h3⟩

/-- Claim C10: with an empty convert filter, a row matching `n ≥ 2` entries
of `crowd_ignore_filter` is appended once per matching entry — `n` duplicate
copies — to the ignore bucket under its timestep token (and is kept out of
the normal bucket). -/
theorem c10_duplicate_ignore_appends (p : LoadParams)
    (hcv : p.cvf = [])
    (readData ignoreData readData' ignoreData' : Bucket) (row : Row)
    (hok : processRow p (readData, ignoreData) row
      = Except.ok (readData', ignoreData'))
    (hn : 2 ≤ countMatches p.cif (stripRow row)) :
    ∃ ts, (stripRow row).get? p.time_col = some ts ∧
      bucketGet ignoreData' ts = bucketGet ignoreData ts
        ++ List.replicate (countMatches p.cif (stripRow row)) (stripRow row) ∧
    readData' = readData := by
  rcases hlast : row.getLast? with _ | lastv
  · simp only [processRow, hlast] at hok
    cases hok
  · simp only [processRow, hlast] at hok
    rcases hts : (stripRow row).get? p.time_col with _ | ts
    · simp only [hts] at hok
      cases hok
    · simp only [hts] at hok
      rcases hloop : ignoreLoop p.cvf ts p.cif (stripRow row) ignoreData false
        with e | ⟨row2, ig2, flag⟩
      · simp only [hloop] at hok
        cases hok
      · simp only [hloop] at hok
        rw [hcv] at hloop
        obtain ⟨h1, h2, h3⟩ := ignoreLoop_nil_conv ts p.cif (stripRow row)
          ignoreData false row2 ig2 flag hloop
        have hflag : flag = true := by
          rw [h3, Bool.false_or, decide_eq_true_eq]
          omega
        subst hflag
        rw [if_pos rfl] at hok
        injection hok with hok
        injection hok with ha hb
        subst hb
        exact ⟨ts, rfl, h2, ha.symm⟩

/-- Witness for claim C10: a row matching both ignore entries (columns 1 and
2) is appended twice to the ignore bucket for its timestep. -/
theorem c10_witness :
    (({ crowd_ignore_filter := some [(1, ["car"]), (2, ["x"])] }
        : LoadParams).cvf = []) ∧
    processRow { crowd_ignore_filter := some [(1, ["car"]), (2, ["x"])] }
        ([], []) ["0", "car", "x"]
      = Except.ok ([], [("0", [["0", "car", "x"], ["0", "car", "x"]])]) ∧
    2 ≤ countMatches [(1, ["car"]), (2, ["x"])] ["0", "car", "x"] ∧
    ∃ ts, (stripRow ["0", "car", "x"]).get? 0 = some ts ∧
      bucketGet [("0", [["0", "car", "x"], ["0", "car", "x"]])] ts
        = bucketGet [] ts ++ List.replicate
            (countMatches [(1, ["car"]), (2, ["x"])] ["0", "car", "x"])
            ["0", "car", "x"] := by
  refine ⟨by rfl, by rfl, by decide, ?_⟩
  have h := c10_duplicate_ignore_appends
    { crowd_ignore_filter := some [(1, ["car"]), (2, ["x"])] } (by rfl)
    [] [] [] [("0", [["0", "car", "x"], ["0", "car", "x"]])]
    ["0", "car", "x"] (by rfl) (by decide)
  obtain ⟨ts, hts, hbucket, _⟩ := h
  exact ⟨ts, hts, hbucket⟩

end TrackEval
